import Mathlib

/-!
Shallow embedding of the user-management REST API (src/index.js with the
lowdb store of src/unnamed/part_000).

JSON/JavaScript values are modelled by `Value`; records (JS objects) are
association lists of field name / value pairs, preserving insertion order
as JS objects do.  Each Express handler becomes a pure function from the
request data and the store state to a result holding the HTTP status, the
JSON response body and the new store state.  The bcrypt collaborator is
external to the repository and is passed in as an abstract pair of
`hash`/`compare` functions.
-/

set_option autoImplicit false

namespace UserApi

/-- A JavaScript value as they occur in this service: JSON values plus
`undefined` (the result of reading an absent property). -/
inductive Value where
  | str (s : String)
  | num (n : Int)
  | bool (b : Bool)
  | null
  | undefined
  | obj (fields : List (String × Value))
  | arr (elems : List Value)
deriving Repr

/-- A JS object: ordered association list of named fields. -/
abbrev Obj := List (String × Value)

/-- JS truthiness, as used by `if (!email || !password)` and `a || b`.
`""`, `0`, `false`, `null` and `undefined` are falsy; objects and arrays
are truthy. -/
def truthy : Value → Bool
  | .str s => s ≠ ""
  | .num n => n ≠ 0
  | .bool b => b
  | .null => false
  | .undefined => false
  | .obj _ => true
  | .arr _ => true

/-- JS strict equality `===` on the values compared by this service.
Primitives compare by value.  Objects and arrays compare by reference in
JS; a freshly parsed request value is never reference-equal to a stored
one, so the embedding makes the comparison false. -/
def veq : Value → Value → Bool
  | .str a, .str b => a == b
  | .num a, .num b => a == b
  | .bool a, .bool b => a == b
  | .null, .null => true
  | .undefined, .undefined => true
  | _, _ => false

/-- JS `a || b`: returns `a` when truthy, otherwise `b` verbatim. -/
def orElse (a b : Value) : Value :=
  if truthy a then a else b

/-- Property read `o[k]`: first field with the given name, `undefined`
when absent. -/
def getField : Obj → String → Value
  | [], _ => .undefined
  | kv :: rest, k => if kv.1 == k then kv.2 else getField rest k

/-- Whether an object has a field of the given name. -/
def hasField : Obj → String → Bool
  | [], _ => false
  | kv :: rest, k => kv.1 == k || hasField rest k

/-- Property write `o[k] = v`: replaces the existing field in place,
appends when absent (JS object assignment order semantics). -/
def setField : Obj → String → Value → Obj
  | [], k, v => [(k, v)]
  | kv :: rest, k, v => if kv.1 == k then (k, v) :: rest else kv :: setField rest k v

/-- Rest destructuring `{password: _, ...rest}`: drops the named field. -/
def removeField (o : Obj) (k : String) : Obj :=
  o.filter fun kv => !(kv.1 == k)

/-- Optional chaining `v?.k`: field of an object, `undefined` on
everything else (including `null`/`undefined`, which `?.` short-circuits,
and primitives, which have no such property here). -/
def getProp (v : Value) (k : String) : Value
  := match v with
  | .obj o => getField o k
  | _ => .undefined

/-- The enumerable own entries produced by spreading a value into an
object literal: objects contribute their fields, strings their indexed
characters, everything else nothing. -/
def spreadFields : Value → Obj
  | .obj o => o
  | .str s => (s.toList.enum).map fun ic => (toString ic.1, Value.str (String.singleton ic.2))
  | .arr l => (l.enum).map fun iv => (toString iv.1, iv.2)
  | _ => []

/-- Object spread `{...a, ...b}`: assign `b`'s entries into a copy of
`a`, in order. -/
def mergeObj (a b : Obj) : Obj :=
  b.foldl (fun acc kv => setField acc kv.1 kv.2) a

/-- `String.prototype.split(' ')` on the character list: splits at every
single space, keeping empty tokens, as JS does (`"".split(' ')` is
`[""]`, `"a  b".split(' ')` is `["a", "", "b"]`). -/
def splitSp : List Char → List (List Char)
  | [] => [[]]
  | c :: rest =>
    match splitSp rest with
    | [] => [[]]
    | t :: ts => if c = ' ' then [] :: t :: ts else (c :: t) :: ts

/-- `name.split(' ')[i]` as a JS value: the token at index `i` of the
split on single spaces, `undefined` past the end. -/
def splitIdx (s : String) (i : Nat) : Value :=
  match ((splitSp s.toList).map fun l => String.mk l)[i]? with
  | some t => .str t
  | none => .undefined

/-- The persisted lowdb document `{ users: [...], admins: [...] }`.
`db.data.admins?.find` tolerates an absent admin collection; it behaves
exactly like an empty one, so both are the empty list here. -/
structure DB where
  users : List Obj
  admins : List Obj
deriving Repr

/-- The external bcrypt collaborator (`bcrypt.hash` with the fixed salt
rounds absorbed, and `bcrypt.compare`); not part of this repository, so
the service is parametric in it. -/
structure Bcrypt where
  hash : Value → String
  compare : Value → Value → Bool

/-- Result of one handler: HTTP status, JSON response body, store state
after the request (`db.write` persists the whole document). -/
structure HRes where
  status : Nat
  body : Obj
  db : DB
deriving Repr

/-- The `newUser` object literal of the register handler (lines
122-142), with `freshId`, `guid` and `now` standing for the
`Date.now`/`Math.random` identifier, `generateGUID()` and
`new Date().toISOString()` values drawn during the request. -/
def newUserRecord (B : Bcrypt) (freshId guid now : String) (body : Obj) : Obj :=
  let name := getField body "name"
  [("_id", .str freshId),
   ("guid", .str guid),
   ("isActive", .bool true),
   ("balance", orElse (getField body "balance") (.str "$1,000.00")),
   ("picture", orElse (getField body "picture") (.str "http://placehold.it/32x32")),
   ("picturePublicId", .null),
   ("age", orElse (getField body "age") (.num 25)),
   ("eyeColor", orElse (getField body "eyeColor") (.str "brown")),
   ("name", .obj [
     ("first", orElse (getProp name "first")
       (match name with | .str s => splitIdx s 0 | _ => .str "User")),
     ("last", orElse (getProp name "last")
       (match name with | .str s => splitIdx s 1 | _ => .str "Anonymous"))]),
   ("company", orElse (getField body "company") (.str "Freelance")),
   ("email", getField body "email"),
   ("password", .str (B.hash (getField body "password"))),
   ("phone", orElse (getField body "phone") (.str "+1 (000) 000-0000")),
   ("address", orElse (getField body "address") (.str "123 Main Street, Anytown, USA")),
   ("createdAt", .str now),
   ("updatedAt", .str now)]

/-- `POST /api/auth/register`. -/
def register (B : Bcrypt) (freshId guid now : String) (body : Obj) (db : DB) : HRes :=
  let email := getField body "email"
  let password := getField body "password"
  if !(truthy email) || !(truthy password) then
    ⟨400, [("success", .bool false), ("message", .str "Email and password are required")], db⟩
  else if (db.users.find? fun u => veq (getField u "email") email).isSome then
    ⟨409, [("success", .bool false), ("message", .str "User already exists")], db⟩
  else
    let newUser := newUserRecord B freshId guid now body
    ⟨201, [("success", .bool true), ("message", .str "User registered successfully"),
           ("user", .obj (removeField newUser "password"))],
     ⟨db.users ++ [newUser], db.admins⟩⟩

/-- The user-collection half of `POST /api/auth/login` (lines 196-218),
reached when no admin matched or the admin password check failed. -/
def loginUsers (B : Bcrypt) (email password : Value) (db : DB) : HRes :=
  match db.users.find? (fun u => veq (getField u "email") email) with
  | none => ⟨401, [("success", .bool false), ("message", .str "Invalid credentials")], db⟩
  | some user =>
    if B.compare password (getField user "password") then
      ⟨200, [("success", .bool true), ("message", .str "Login successful"),
             ("user", .obj (removeField user "password")), ("isAdmin", .bool false)], db⟩
    else
      ⟨401, [("success", .bool false), ("message", .str "Invalid credentials")], db⟩

/-- `POST /api/auth/login`: admin collection first, falling through to
the user collection when the admin password check fails. -/
def login (B : Bcrypt) (body : Obj) (db : DB) : HRes :=
  let email := getField body "email"
  let password := getField body "password"
  if !(truthy email) || !(truthy password) then
    ⟨400, [("success", .bool false), ("message", .str "Email and password are required")], db⟩
  else
    match db.admins.find? (fun a => veq (getField a "email") email) with
    | some admin =>
      if B.compare password (getField admin "password") then
        ⟨200, [("success", .bool true), ("message", .str "Admin login successful"),
               ("user", .obj (removeField admin "password")), ("isAdmin", .bool true)], db⟩
      else
        loginUsers B email password db
    | none => loginUsers B email password db

/-- `GET /api/auth/profile?email=`. -/
def getProfile (email : Value) (db : DB) : HRes :=
  if !(truthy email) then
    ⟨400, [("success", .bool false), ("message", .str "Email parameter is required")], db⟩
  else
    match db.users.find? (fun u => veq (getField u "email") email) with
    | none => ⟨404, [("success", .bool false), ("message", .str "User not found")], db⟩
    | some user =>
      ⟨200, [("success", .bool true), ("user", .obj (removeField user "password"))], db⟩

/-- The merged record `{...user, ...updates, updatedAt: now}` written by
the profile-update handler at the matched index `i`. -/
def updatedRecord (now : String) (body : Obj) (db : DB) (i : Nat) : Obj :=
  setField (mergeObj (db.users.getD i []) (spreadFields (getField body "updates")))
    "updatedAt" (.str now)

/-- `PUT /api/auth/profile`: shallow merge
`{...user, ...updates, updatedAt: now}` at the matched index. -/
def updateProfile (now : String) (body : Obj) (db : DB) : HRes :=
  let email := getField body "email"
  let updates := getField body "updates"
  if !(truthy email) || !(truthy updates) then
    ⟨400, [("success", .bool false), ("message", .str "Email and updates are required")], db⟩
  else
    match db.users.findIdx? (fun u => veq (getField u "email") email) with
    | none => ⟨404, [("success", .bool false), ("message", .str "User not found")], db⟩
    | some i =>
      let newUser := updatedRecord now body db i
      ⟨200, [("success", .bool true), ("message", .str "Profile updated successfully"),
             ("user", .obj (removeField newUser "password"))],
       ⟨db.users.set i newUser, db.admins⟩⟩

/-- `GET /api/admin/users`. -/
def listUsers (db : DB) : HRes :=
  ⟨200, [("success", .bool true),
         ("users", .arr (db.users.map fun u => .obj (removeField u "password")))], db⟩

/-- The record written by the status-toggle handler at the matched index
`i`: `isActive` assigned verbatim from the request body, `updatedAt`
refreshed. -/
def statusRecord (now : String) (body : Obj) (db : DB) (i : Nat) : Obj :=
  setField (setField (db.users.getD i []) "isActive" (getField body "isActive"))
    "updatedAt" (.str now)

/-- `PUT /api/admin/users/:id/status`: stores `req.body.isActive`
verbatim (no validation) and refreshes `updatedAt`.  `id` is the URL
parameter, always a string. -/
def setStatus (now : String) (id : String) (body : Obj) (db : DB) : HRes :=
  match db.users.findIdx? (fun u => veq (getField u "_id") (.str id)) with
  | none => ⟨404, [("success", .bool false), ("message", .str "User not found")], db⟩
  | some i =>
    let newUser := statusRecord now body db i
    ⟨200, [("success", .bool true), ("message", .str "User status updated"),
           ("user", .obj (removeField newUser "password"))],
     ⟨db.users.set i newUser, db.admins⟩⟩

/-- `DELETE /api/admin/users/:id`.  The best-effort Cloudinary deletion
has no effect on the store and is not modelled. -/
def deleteUser (id : String) (db : DB) : HRes :=
  match db.users.findIdx? (fun u => veq (getField u "_id") (.str id)) with
  | none => ⟨404, [("success", .bool false), ("message", .str "User not found")], db⟩
  | some i =>
    ⟨200, [("success", .bool true), ("message", .str "User deleted successfully")],
     ⟨db.users.eraseIdx i, db.admins⟩⟩

/-- One Account Service request, with the nondeterministic inputs
(identifiers, timestamps, request data) it consumes. -/
inductive Op where
  | register (freshId guid now : String) (body : Obj)
  | login (body : Obj)
  | getProfile (email : Value)
  | updateProfile (now : String) (body : Obj)
  | listUsers
  | setStatus (now : String) (id : String) (body : Obj)
  | deleteUser (id : String)

/-- Dispatch one operation against the store. -/
def applyOp (B : Bcrypt) : Op → DB → HRes
  | .register freshId guid now body, db => register B freshId guid now body db
  | .login body, db => login B body db
  | .getProfile email, db => getProfile email db
  | .updateProfile now body, db => updateProfile now body db
  | .listUsers, db => listUsers db
  | .setStatus now id body, db => setStatus now id body db
  | .deleteUser id, db => deleteUser id db

/-- Run a sequence of operations, threading the store state. -/
def run (B : Bcrypt) (ops : List Op) (db : DB) : DB :=
  ops.foldl (fun d op => (applyOp B op d).db) db

/-- An object is well-formed when no field name repeats (always true of
parsed JSON objects). -/
def keysNodup (o : Obj) : Prop :=
  (o.map Prod.fst).Nodup

/-! ### Concrete fixtures used by witnesses and counterexamples -/

/-- A concrete model of the bcrypt collaborator: every digest is the
fixed string `$2b$10$H`, and `compare` accepts exactly the plaintext
`"pw"` against that digest. -/
def Bx : Bcrypt :=
  ⟨fun _ => "$2b$10$H", fun p h => veq p (.str "pw") && veq h (.str "$2b$10$H")⟩

/-- A concrete stored user record, as a lowdb document could hold it. -/
def uA : Obj :=
  [("_id", .str "id1"), ("guid", .str "g1"), ("isActive", .bool true),
   ("balance", .str "$1,000.00"), ("name", .obj [("first", .str "A"), ("last", .str "B")]),
   ("company", .str "Freelance"), ("email", .str "a@x.com"),
   ("password", .str "$2b$10$H"), ("createdAt", .str "t0"), ("updatedAt", .str "t0")]

/-- A one-user, no-admin store holding `uA`. -/
def dbA : DB := ⟨[uA], []⟩


/-- Pairwise distinctness of stored user emails, under the strict
equality the handlers use for lookups. -/
def uniqueEmails (l : List Obj) : Prop :=
  l.Pairwise fun u v => veq (getField u "email") (getField v "email") = false

/-- Operations whose update payload does not contain a top-level `email`
field (profile update is the only operation that can rewrite a stored
email). -/
def keepsEmail : Op → Prop
  | .updateProfile _ body => hasField (spreadFields (getField body "updates")) "email" = false
  | _ => True

/-- Operations whose update payload contains neither a top-level `_id`
nor a top-level `createdAt` field. -/
def keepsIdentity : Op → Prop
  | .updateProfile _ body =>
      hasField (spreadFields (getField body "updates")) "_id" = false ∧
      hasField (spreadFields (getField body "updates")) "createdAt" = false
  | _ => True

/-- Registration request used by the plaintext-storage run. -/
def regBodyPw : Obj := [("email", .str "a@x.com"), ("password", .str "pw1")]

/-- Profile-update request whose updates object carries a plaintext
password field. -/
def updBodyPw : Obj :=
  [("email", .str "a@x.com"), ("updates", .obj [("password", .str "pw2")])]

/-- Operation sequence producing two stored users with the same email:
two registrations with distinct emails, then a profile update rewriting
the first user's email to the second's. -/
def dupOps : List Op :=
  [.register "id1" "g1" "t1" [("email", .str "a@x.com"), ("password", .str "pw")],
   .register "id2" "g2" "t1" [("email", .str "b@x.com"), ("password", .str "pw")],
   .updateProfile "t2" [("email", .str "a@x.com"),
     ("updates", .obj [("email", .str "b@x.com")])]]

/-- A concrete stored user sharing the email `a@x` with the admin
`aDual` but holding a different digest. -/
def uDual : Obj :=
  [("_id", .str "u1"), ("email", .str "a@x"), ("password", .str "HU")]

/-- A concrete pre-seeded admin record. -/
def aDual : Obj :=
  [("email", .str "a@x"), ("password", .str "HA"), ("role", .str "admin")]

/-- A store in which the same email lives in both collections with
different passwords. -/
def dbDual : DB := ⟨[uDual], [aDual]⟩

/-- A bcrypt model for the dual-collection scenario: only the plaintext
`"pwU"` verifies, and only against the digest `"HU"`. -/
def Bdual : Bcrypt :=
  ⟨fun _ => "HU", fun p h => veq p (.str "pwU") && veq h (.str "HU")⟩


/-- Redaction of a response body: any `user` object and every element of
any `users` array it carries has no `password` field. -/
def redactedResp (b : Obj) : Prop :=
  (∀ o, getField b "user" = .obj o → hasField o "password" = false) ∧
  (∀ l, getField b "users" = .arr l →
    ∀ v ∈ l, ∀ o, v = .obj o → hasField o "password" = false)

/-! ### Field-access lemmas -/

theorem veq_comm (a b : Value) : veq a b = veq b a := by
  cases a <;> cases b <;> simp [veq, BEq.comm]

@[simp] theorem getField_nil (k : String) : getField [] k = .undefined := rfl

theorem hasField_eq_mem (o : Obj) (k : String) :
    hasField o k = true ↔ k ∈ o.map Prod.fst := by
  induction o with
  | nil => simp [hasField]
  | cons kv rest ih =>
    simp only [hasField, Bool.or_eq_true, beq_iff_eq, ih, List.map_cons, List.mem_cons]
    constructor
    · rintro (h | h)
      · exact Or.inl h.symm
      · exact Or.inr h
    · rintro (h | h)
      · exact Or.inl h.symm
      · exact Or.inr h

theorem getField_setField_self (o : Obj) (k : String) (v : Value) :
    getField (setField o k v) k = v := by
  induction o with
  | nil => simp [setField, getField]
  | cons kv rest ih =>
    by_cases h : kv.1 == k
    · simp [setField, getField, h]
    · simp [setField, getField, h, ih]

theorem getField_setField_ne (o : Obj) {k k' : String} (v : Value) (h : k' ≠ k) :
    getField (setField o k v) k' = getField o k' := by
  have hkk' : (k == k') = false := beq_eq_false_iff_ne.mpr (Ne.symm h)
  induction o with
  | nil => simp [setField, getField, hkk']
  | cons kv rest ih =>
    by_cases hk : kv.1 == k
    · have h1 : kv.1 = k := by simpa using hk
      simp [setField, getField, hk, hkk', h1]
    · simp [setField, getField, hk, ih]

theorem getField_mergeObj_not_has (a b : Obj) (k : String)
    (h : hasField b k = false) : getField (mergeObj a b) k = getField a k := by
  induction b generalizing a with
  | nil => rfl
  | cons kv rest ih =>
    simp only [hasField, Bool.or_eq_false_iff] at h
    have hne : k ≠ kv.1 := fun hc => by simp [hc] at h
    simp only [mergeObj, List.foldl_cons]
    rw [show (List.foldl (fun acc kv => setField acc kv.1 kv.2) (setField a kv.1 kv.2) rest)
        = mergeObj (setField a kv.1 kv.2) rest from rfl]
    rw [ih _ h.2, getField_setField_ne _ _ hne]

theorem getField_mergeObj_has (a b : Obj) (k : String)
    (hnd : keysNodup b) (h : hasField b k = true) :
    getField (mergeObj a b) k = getField b k := by
  induction b generalizing a with
  | nil => simp [hasField] at h
  | cons kv rest ih =>
    simp only [mergeObj, List.foldl_cons]
    rw [show (List.foldl (fun acc kv => setField acc kv.1 kv.2) (setField a kv.1 kv.2) rest)
        = mergeObj (setField a kv.1 kv.2) rest from rfl]
    by_cases hk : kv.1 == k
    · have hkk : kv.1 = k := by simpa using hk
      simp only [keysNodup, List.map_cons, List.nodup_cons] at hnd
      have hrest : hasField rest k = false := by
        cases hht : hasField rest k with
        | false => rfl
        | true =>
          exfalso
          have hmem := (hasField_eq_mem rest k).mp hht
          rw [← hkk] at hmem
          exact hnd.1 hmem
      rw [getField_mergeObj_not_has _ _ _ hrest, hkk, getField_setField_self]
      simp [getField, hk]
    · have hnd' : keysNodup rest := by
        simp only [keysNodup, List.map_cons, List.nodup_cons] at hnd
        exact hnd.2
      have hh : hasField rest k = true := by
        simp only [hasField, Bool.or_eq_true] at h
        rcases h with h1 | h2
        · exact absurd h1 (by simp [hk])
        · exact h2
      rw [ih _ hnd' hh]
      simp [getField, hk]

theorem hasField_removeField (o : Obj) (k : String) :
    hasField (removeField o k) k = false := by
  induction o with
  | nil => rfl
  | cons kv rest ih =>
    by_cases h : kv.1 == k
    · simp [removeField, h] at ih ⊢
      simpa [removeField] using ih
    · simp only [removeField, List.filter_cons, h, Bool.not_false, if_pos]
      simp only [hasField, h, Bool.false_or]
      simpa [removeField] using ih

theorem findIdx?_getD {α : Type} {p : α → Bool} {l : List α} {i : Nat} {d : α}
    (h : l.findIdx? p = some i) : i < l.length ∧ p (l.getD i d) = true ∧ l.getD i d ∈ l := by
  rw [List.findIdx?_eq_some_iff_getElem] at h
  obtain ⟨hlt, hp, -⟩ := h
  refine ⟨hlt, ?_, ?_⟩
  · rwa [List.getD_eq_getElem l d hlt]
  · rw [List.getD_eq_getElem l d hlt]
    exact List.getElem_mem hlt

/-! ### Handler characterization lemmas -/

theorem register_success (B : Bcrypt) (f g n : String) (body : Obj) (db : DB)
    (he : truthy (getField body "email") = true)
    (hp : truthy (getField body "password") = true)
    (hn : db.users.find? (fun u => veq (getField u "email") (getField body "email")) = none) :
    register B f g n body db = ⟨201,
      [("success", .bool true), ("message", .str "User registered successfully"),
       ("user", .obj (removeField (newUserRecord B f g n body) "password"))],
      ⟨db.users ++ [newUserRecord B f g n body], db.admins⟩⟩ := by
  simp [register, he, hp, hn]

theorem newUser_password (B : Bcrypt) (f g n : String) (body : Obj) :
    getField (newUserRecord B f g n body) "password"
      = .str (B.hash (getField body "password")) := by
  simp [newUserRecord, getField]

theorem newUser_email (B : Bcrypt) (f g n : String) (body : Obj) :
    getField (newUserRecord B f g n body) "email" = getField body "email" := by
  simp [newUserRecord, getField]

theorem newUser_id (B : Bcrypt) (f g n : String) (body : Obj) :
    getField (newUserRecord B f g n body) "_id" = .str f := by
  simp [newUserRecord, getField]

theorem newUser_createdAt (B : Bcrypt) (f g n : String) (body : Obj) :
    getField (newUserRecord B f g n body) "createdAt" = .str n := by
  simp [newUserRecord, getField]

theorem update_success (now : String) (body : Obj) (db : DB) (i : Nat)
    (he : truthy (getField body "email") = true)
    (hu : truthy (getField body "updates") = true)
    (hi : db.users.findIdx? (fun u => veq (getField u "email") (getField body "email"))
      = some i) :
    updateProfile now body db = ⟨200,
      [("success", .bool true), ("message", .str "Profile updated successfully"),
       ("user", .obj (removeField (updatedRecord now body db i) "password"))],
      ⟨db.users.set i (updatedRecord now body db i), db.admins⟩⟩ := by
  simp [updateProfile, he, hu, hi]

theorem setStatus_success (now id : String) (body : Obj) (db : DB) (i : Nat)
    (hi : db.users.findIdx? (fun u => veq (getField u "_id") (.str id)) = some i) :
    setStatus now id body db = ⟨200,
      [("success", .bool true), ("message", .str "User status updated"),
       ("user", .obj (removeField (statusRecord now body db i) "password"))],
      ⟨db.users.set i (statusRecord now body db i), db.admins⟩⟩ := by
  simp [setStatus, hi]

/-! ### C1: registration hashes the password and redacts the response -/

/-- C1: every registration whose email is truthy and not already present
among the users and whose password is a non-empty string succeeds with
status 201, the `user` object of the response has no `password` field,
and the persisted record's password is the bcrypt digest of the submitted
plaintext — hence differs from the plaintext whenever the digest does. -/
theorem register_hashes_password (B : Bcrypt) (freshId guid now : String)
    (body : Obj) (db : DB) (pw : String)
    (he : truthy (getField body "email") = true)
    (hpw : getField body "password" = .str pw)
    (hne : pw ≠ "")
    (hfresh : ∀ u ∈ db.users, veq (getField u "email") (getField body "email") = false) :
    (register B freshId guid now body db).status = 201 ∧
    getField (register B freshId guid now body db).body "user"
      = .obj (removeField (newUserRecord B freshId guid now body) "password") ∧
    hasField (removeField (newUserRecord B freshId guid now body) "password") "password"
      = false ∧
    (register B freshId guid now body db).db.users
      = db.users ++ [newUserRecord B freshId guid now body] ∧
    getField (newUserRecord B freshId guid now body) "password" = .str (B.hash (.str pw)) ∧
    (B.hash (.str pw) ≠ pw →
      getField (newUserRecord B freshId guid now body) "password" ≠ .str pw) := by
  have hp : truthy (getField body "password") = true := by
    rw [hpw]; simpa [truthy] using hne
  have hn : db.users.find? (fun u => veq (getField u "email") (getField body "email"))
      = none := by
    rw [List.find?_eq_none]
    intro u hu
    simp [hfresh u hu]
  rw [register_success B freshId guid now body db he hp hn]
  refine ⟨rfl, by simp [getField], hasField_removeField _ _, rfl, ?_, ?_⟩
  · rw [newUser_password, hpw]
  · intro hdig
    rw [newUser_password, hpw]
    intro hc
    exact hdig (by simpa using hc)

/-- Witness for C1 at a concrete request against the empty store. -/
theorem register_hashes_password_witness :
    (register Bx "id1" "g1" "t1" [("email", .str "a@x.com"), ("password", .str "pw")]
      ⟨[], []⟩).status = 201 ∧
    getField (newUserRecord Bx "id1" "g1" "t1"
      [("email", .str "a@x.com"), ("password", .str "pw")]) "password" ≠ .str "pw" := by
  have h := register_hashes_password Bx "id1" "g1" "t1"
    [("email", .str "a@x.com"), ("password", .str "pw")] ⟨[], []⟩ "pw"
    (by rfl) (by rfl) (by simp) (by intro u hu; simp at hu)
  exact ⟨h.1, h.2.2.2.2.2 (by simp [Bx])⟩

/-! ### C6: registration defaults and free-text name splitting -/

/-- C6 counterexample: the claim says a free-text name is split on the
first space with the last name being *everything after* that space.  The
code takes `name.split(' ')[1]`, the second token only: registering with
name `"John Paul Smith"` stores last name `"Paul"`, not `"Paul Smith"`. -/
theorem name_split_second_token_only :
    getField ((register Bx "id1" "g1" "t1"
      [("email", .str "a@x.com"), ("password", .str "pw"),
       ("name", .str "John Paul Smith")] ⟨[], []⟩).db.users.getD 0 []) "name"
      = .obj [("first", .str "John"), ("last", .str "Paul")] ∧
    Value.str "Paul" ≠ Value.str "Paul Smith" := by
  constructor
  · rfl
  · simp

/-- C6 as amended: every omitted optional field is stored with its fixed
literal default, a missing name yields `{first: "User", last:
"Anonymous"}`, and a free-text name string is split on single spaces with
the first token as first name and the *second token only* as last name
(`undefined` when there is no second token). -/
theorem register_defaults (B : Bcrypt) (f g n : String) (body : Obj) (db : DB)
    (he : truthy (getField body "email") = true)
    (hp : truthy (getField body "password") = true)
    (hn : db.users.find? (fun u => veq (getField u "email") (getField body "email")) = none) :
    (register B f g n body db).db.users = db.users ++ [newUserRecord B f g n body] ∧
    getField (newUserRecord B f g n body) "isActive" = .bool true ∧
    (getField body "balance" = .undefined →
      getField (newUserRecord B f g n body) "balance" = .str "$1,000.00") ∧
    (getField body "picture" = .undefined →
      getField (newUserRecord B f g n body) "picture" = .str "http://placehold.it/32x32") ∧
    (getField body "age" = .undefined →
      getField (newUserRecord B f g n body) "age" = .num 25) ∧
    (getField body "eyeColor" = .undefined →
      getField (newUserRecord B f g n body) "eyeColor" = .str "brown") ∧
    (getField body "company" = .undefined →
      getField (newUserRecord B f g n body) "company" = .str "Freelance") ∧
    (getField body "phone" = .undefined →
      getField (newUserRecord B f g n body) "phone" = .str "+1 (000) 000-0000") ∧
    (getField body "address" = .undefined →
      getField (newUserRecord B f g n body) "address" = .str "123 Main Street, Anytown, USA") ∧
    (getField body "name" = .undefined →
      getField (newUserRecord B f g n body) "name"
        = .obj [("first", .str "User"), ("last", .str "Anonymous")]) ∧
    (∀ s, getField body "name" = .str s →
      getField (newUserRecord B f g n body) "name"
        = .obj [("first", splitIdx s 0), ("last", splitIdx s 1)]) := by
  rw [register_success B f g n body db he hp hn]
  refine ⟨rfl, by simp [newUserRecord, getField], ?_, ?_, ?_, ?_, ?_, ?_, ?_, ?_, ?_⟩
  all_goals
    first
    | (intro h; simp [newUserRecord, getField, h, orElse, truthy, getProp])
    | (intro s h; simp [newUserRecord, getField, h, orElse, truthy, getProp])

/-- Witness for C6 at a concrete minimal registration request. -/
theorem register_defaults_witness :
    (register Bx "id1" "g1" "t1" [("email", .str "a@x.com"), ("password", .str "pw")]
      ⟨[], []⟩).db.users
      = [newUserRecord Bx "id1" "g1" "t1"
          [("email", .str "a@x.com"), ("password", .str "pw")]] ∧
    getField (newUserRecord Bx "id1" "g1" "t1"
      [("email", .str "a@x.com"), ("password", .str "pw")]) "balance"
      = .str "$1,000.00" ∧
    getField (newUserRecord Bx "id1" "g1" "t1"
      [("email", .str "a@x.com"), ("password", .str "pw")]) "name"
      = .obj [("first", .str "User"), ("last", .str "Anonymous")] := by
  have h := register_defaults Bx "id1" "g1" "t1"
    [("email", .str "a@x.com"), ("password", .str "pw")] ⟨[], []⟩
    (by rfl) (by rfl) (by rfl)
  exact ⟨h.1, h.2.2.1 rfl, h.2.2.2.2.2.2.2.2.2.1 rfl⟩



/-! ### C7: profile update with a single company field is a frame update -/

/-- C7: updating a stored user's profile with `{company: "Acme"}`
replaces exactly the `company` and `updatedAt` fields of the matched
record, leaves every one of its other fields unchanged (the merge is a
top-level field replacement), and leaves every other record and the admin
collection untouched. -/
theorem update_company_frame (now : String) (body : Obj) (db : DB) (i : Nat)
    (he : truthy (getField body "email") = true)
    (hupd : getField body "updates" = .obj [("company", .str "Acme")])
    (hi : db.users.findIdx? (fun u => veq (getField u "email") (getField body "email"))
      = some i) :
    (updateProfile now body db).status = 200 ∧
    (updateProfile now body db).db.users = db.users.set i (updatedRecord now body db i) ∧
    getField (updatedRecord now body db i) "company" = .str "Acme" ∧
    getField (updatedRecord now body db i) "updatedAt" = .str now ∧
    (∀ k, k ≠ "company" → k ≠ "updatedAt" →
      getField (updatedRecord now body db i) k = getField (db.users.getD i []) k) ∧
    (∀ j, j ≠ i → (updateProfile now body db).db.users[j]? = db.users[j]?) ∧
    (updateProfile now body db).db.users.length = db.users.length ∧
    (updateProfile now body db).db.admins = db.admins := by
  have hu : truthy (getField body "updates") = true := by rw [hupd]; rfl
  rw [update_success now body db i he hu hi]
  have hrec : updatedRecord now body db i
      = setField (setField (db.users.getD i []) "company" (.str "Acme"))
          "updatedAt" (.str now) := by
    rw [updatedRecord, hupd]
    rfl
  refine ⟨rfl, rfl, ?_, ?_, ?_, ?_, List.length_set .., rfl⟩
  · rw [hrec, getField_setField_ne _ _ (by decide), getField_setField_self]
  · rw [hrec, getField_setField_self]
  · intro k hkc hku
    rw [hrec, getField_setField_ne _ _ hku, getField_setField_ne _ _ hkc]
  · intro j hj
    exact List.getElem?_set_ne (fun hc => hj hc.symm)

/-- Witness for C7: concrete update of the stored record `uA`. -/
theorem update_company_frame_witness :
    (updateProfile "t2" [("email", .str "a@x.com"),
      ("updates", .obj [("company", .str "Acme")])] dbA).status = 200 ∧
    getField (updatedRecord "t2" [("email", .str "a@x.com"),
      ("updates", .obj [("company", .str "Acme")])] dbA 0) "company" = .str "Acme" ∧
    getField (updatedRecord "t2" [("email", .str "a@x.com"),
      ("updates", .obj [("company", .str "Acme")])] dbA 0) "updatedAt" = .str "t2" ∧
    getField (updatedRecord "t2" [("email", .str "a@x.com"),
      ("updates", .obj [("company", .str "Acme")])] dbA 0) "balance" = getField uA "balance" := by
  have h := update_company_frame "t2" [("email", .str "a@x.com"),
    ("updates", .obj [("company", .str "Acme")])] dbA 0 (by rfl) (by rfl) (by rfl)
  exact ⟨h.1, h.2.2.1, h.2.2.2.1,
    by rw [h.2.2.2.2.1 "balance" (by decide) (by decide)]; rfl⟩

/-! ### C8: profile-update failure cases -/

/-- C8 counterexample: the claim says an updates value that is an empty
object yields `InvalidInput` (400).  An empty object is truthy in JS, so
the code accepts it: the request succeeds with 200 (and refreshes
`updatedAt`). -/
theorem empty_updates_accepted :
    (updateProfile "t2" [("email", .str "a@x.com"), ("updates", .obj [])] dbA).status
      = 200 ∧ (200 : Nat) ≠ 400 := by
  exact ⟨rfl, by decide⟩

/-- C8 as amended: profile update fails with 404 when the email matches
no user (updates being given), fails with 400 when the updates value is
missing or falsy, and in both cases leaves the store unchanged; an
updates value that is a *present but empty* object is accepted: the
operation succeeds with 200 and only refreshes `updatedAt`. -/
theorem update_profile_errors (now : String) (body : Obj) (db : DB) :
    (truthy (getField body "email") = true → truthy (getField body "updates") = true →
      db.users.findIdx? (fun u => veq (getField u "email") (getField body "email")) = none →
      (updateProfile now body db).status = 404 ∧ (updateProfile now body db).db = db) ∧
    (truthy (getField body "updates") = false →
      (updateProfile now body db).status = 400 ∧ (updateProfile now body db).db = db) ∧
    (∀ i, truthy (getField body "email") = true → getField body "updates" = .obj [] →
      db.users.findIdx? (fun u => veq (getField u "email") (getField body "email")) = some i →
      (updateProfile now body db).status = 200 ∧
      (updateProfile now body db).db.users
        = db.users.set i (setField (db.users.getD i []) "updatedAt" (.str now))) := by
  refine ⟨?_, ?_, ?_⟩
  · intro he hu hn
    simp [updateProfile, he, hu, hn]
  · intro hu
    simp [updateProfile, hu]
  · intro i he hupd hi
    have hu : truthy (getField body "updates") = true := by rw [hupd]; rfl
    rw [update_success now body db i he hu hi]
    exact ⟨rfl, by rw [updatedRecord, hupd]; rfl⟩

/-- Witness for C8: the three cases at concrete requests against `dbA`. -/
theorem update_profile_errors_witness :
    (updateProfile "t2" [("email", .str "nobody@x.com"),
      ("updates", .obj [("company", .str "Acme")])] dbA).status = 404 ∧
    (updateProfile "t2" [("email", .str "a@x.com")] dbA).status = 400 ∧
    (updateProfile "t2" [("email", .str "a@x.com"), ("updates", .obj [])] dbA).db.users
      = [setField uA "updatedAt" (.str "t2")] := by
  refine ⟨?_, ?_, ?_⟩
  · exact ((update_profile_errors "t2" [("email", .str "nobody@x.com"),
      ("updates", .obj [("company", .str "Acme")])] dbA).1 (by rfl) (by rfl) (by rfl)).1
  · exact ((update_profile_errors "t2" [("email", .str "a@x.com")] dbA).2.1 (by rfl)).1
  · exact ((update_profile_errors "t2" [("email", .str "a@x.com"),
      ("updates", .obj [])] dbA).2.2 0 (by rfl) (by rfl) (by rfl)).2

/-! ### C10: status toggle stores the request value verbatim -/

/-- C10: when the id matches a stored user, the status toggle succeeds
with 200, stores `req.body.isActive` verbatim with no validation or
defaulting (so a missing field stores the undefined value, and any
non-boolean value is stored as-is), refreshes `updatedAt`, persists the
new record at the matched index, and changes no other field. -/
theorem set_status_verbatim (now id : String) (body : Obj) (db : DB) (i : Nat)
    (hi : db.users.findIdx? (fun u => veq (getField u "_id") (.str id)) = some i) :
    (setStatus now id body db).status = 200 ∧
    (setStatus now id body db).db.users = db.users.set i (statusRecord now body db i) ∧
    getField (statusRecord now body db i) "isActive" = getField body "isActive" ∧
    (getField body "isActive" = .undefined →
      getField (statusRecord now body db i) "isActive" = .undefined) ∧
    getField (statusRecord now body db i) "updatedAt" = .str now ∧
    (∀ k, k ≠ "isActive" → k ≠ "updatedAt" →
      getField (statusRecord now body db i) k = getField (db.users.getD i []) k) := by
  rw [setStatus_success now id body db i hi]
  have hisa : getField (statusRecord now body db i) "isActive" = getField body "isActive" := by
    rw [statusRecord, getField_setField_ne _ _ (by decide), getField_setField_self]
  refine ⟨rfl, rfl, hisa, ?_, ?_, ?_⟩
  · intro h
    rw [hisa, h]
  · rw [statusRecord, getField_setField_self]
  · intro k hka hku
    rw [statusRecord, getField_setField_ne _ _ hku, getField_setField_ne _ _ hka]

/-- Witness for C10: a body without `isActive` stores the undefined
value, and a non-boolean body value is stored verbatim. -/
theorem set_status_verbatim_witness :
    getField (statusRecord "t3" [] dbA 0) "isActive" = .undefined ∧
    getField (statusRecord "t3" [("isActive", .num 7)] dbA 0) "isActive" = .num 7 ∧
    (setStatus "t3" "id1" [] dbA).status = 200 := by
  have h1 := set_status_verbatim "t3" "id1" [] dbA 0 (by rfl)
  have h2 := set_status_verbatim "t3" "id1" [("isActive", .num 7)] dbA 0 (by rfl)
  exact ⟨h1.2.2.2.1 rfl, h2.2.2.1, h1.1⟩

/-! ### C5: admin password failure falls through to the user collection -/

/-- C5: when an email exists in both collections, a login whose password
fails verification against the matched admin record does not reject
immediately: it continues to the user-collection lookup and succeeds with
`isAdmin=false` when the password verifies against the user record. -/
theorem admin_fallthrough (B : Bcrypt) (body : Obj) (db : DB) (admin user : Obj)
    (he : truthy (getField body "email") = true)
    (hp : truthy (getField body "password") = true)
    (ha : db.admins.find? (fun a => veq (getField a "email") (getField body "email"))
      = some admin)
    (hafail : B.compare (getField body "password") (getField admin "password") = false)
    (hu : db.users.find? (fun u => veq (getField u "email") (getField body "email"))
      = some user)
    (husucc : B.compare (getField body "password") (getField user "password") = true) :
    (login B body db).status = 200 ∧
    getField (login B body db).body "isAdmin" = .bool false ∧
    getField (login B body db).body "user" = .obj (removeField user "password") := by
  simp [login, loginUsers, he, hp, ha, hafail, hu, husucc, getField]

/-- Witness for C5 in the concrete dual-collection store. -/
theorem admin_fallthrough_witness :
    (login Bdual [("email", .str "a@x"), ("password", .str "pwU")] dbDual).status = 200 ∧
    getField (login Bdual [("email", .str "a@x"), ("password", .str "pwU")] dbDual).body
      "isAdmin" = .bool false ∧
    getField (login Bdual [("email", .str "a@x"), ("password", .str "pwU")] dbDual).body
      "user" = .obj (removeField uDual "password") :=
  admin_fallthrough Bdual [("email", .str "a@x"), ("password", .str "pwU")] dbDual
    aDual uDual (by rfl) (by rfl) (by rfl) (by rfl) (by rfl) (by rfl)

/-! ### C4: when the login response reports isAdmin -/

/-- C4 counterexample: the claim says a successful login whose
credentials are correct for the returned record has `isAdmin=true` iff
the email existed in the admin collection.  In the dual-collection store
the email `a@x` exists in the admin collection, the login succeeds with
credentials correct for the returned user record, yet `isAdmin` is
`false` because only the user record's digest verified. -/
theorem isAdmin_iff_fails :
    (login Bdual [("email", .str "a@x"), ("password", .str "pwU")] dbDual).status = 200 ∧
    getField (login Bdual [("email", .str "a@x"), ("password", .str "pwU")] dbDual).body
      "user" = .obj (removeField uDual "password") ∧
    Bdual.compare (.str "pwU") (getField uDual "password") = true ∧
    (dbDual.admins.find? (fun a => veq (getField a "email") (.str "a@x"))).isSome = true ∧
    getField (login Bdual [("email", .str "a@x"), ("password", .str "pwU")] dbDual).body
      "isAdmin" = .bool false ∧
    Value.bool false ≠ Value.bool true := by
  refine ⟨rfl, rfl, rfl, rfl, rfl, by simp⟩

/-- C4 as amended: a login (email and password present) succeeds with
`isAdmin=true` iff the email matched a record in the admin collection
*and* the submitted password verified against that record's digest; and
whenever the email exists in either collection but the password verifies
against neither the matched admin record nor the matched user record,
the login fails with 401. -/
theorem isAdmin_iff_admin_password_match (B : Bcrypt) (body : Obj) (db : DB)
    (he : truthy (getField body "email") = true)
    (hp : truthy (getField body "password") = true) :
    (((login B body db).status = 200 ∧
      getField (login B body db).body "isAdmin" = .bool true) ↔
      (∃ admin, db.admins.find? (fun a => veq (getField a "email") (getField body "email"))
          = some admin ∧
        B.compare (getField body "password") (getField admin "password") = true)) ∧
    (((db.admins.find? (fun a => veq (getField a "email") (getField body "email"))).isSome
        ∨ (db.users.find? (fun u => veq (getField u "email") (getField body "email"))).isSome) →
      (∀ a, db.admins.find? (fun a => veq (getField a "email") (getField body "email"))
          = some a → B.compare (getField body "password") (getField a "password") = false) →
      (∀ u, db.users.find? (fun u => veq (getField u "email") (getField body "email"))
          = some u → B.compare (getField body "password") (getField u "password") = false) →
      (login B body db).status = 401) := by
  constructor
  · rcases hA : db.admins.find? (fun a => veq (getField a "email") (getField body "email"))
      with _ | admin
    · rcases hU : db.users.find? (fun u => veq (getField u "email") (getField body "email"))
        with _ | user
      · simp [login, loginUsers, he, hp, hA, hU]
      · rcases hC : B.compare (getField body "password") (getField user "password")
          with _ | _
        · simp [login, loginUsers, he, hp, hA, hU, hC]
        · simp [login, loginUsers, he, hp, hA, hU, hC, getField]
    · rcases hC : B.compare (getField body "password") (getField admin "password")
        with _ | _
      · rcases hU : db.users.find? (fun u => veq (getField u "email") (getField body "email"))
          with _ | user
        · simp [login, loginUsers, he, hp, hA, hC, hU]
        · rcases hC2 : B.compare (getField body "password") (getField user "password")
            with _ | _
          · simp [login, loginUsers, he, hp, hA, hC, hU, hC2]
          · simp [login, loginUsers, he, hp, hA, hC, hU, hC2, getField]
      · simp [login, loginUsers, he, hp, hA, hC, getField]
  · intro _ hfa hfu
    rcases hA : db.admins.find? (fun a => veq (getField a "email") (getField body "email"))
      with _ | admin
    · rcases hU : db.users.find? (fun u => veq (getField u "email") (getField body "email"))
        with _ | user
      · simp [login, loginUsers, he, hp, hA, hU]
      · simp [login, loginUsers, he, hp, hA, hU, hfu user hU]
    · rcases hU : db.users.find? (fun u => veq (getField u "email") (getField body "email"))
        with _ | user
      · simp [login, loginUsers, he, hp, hA, hfa admin hA, hU]
      · simp [login, loginUsers, he, hp, hA, hfa admin hA, hU, hfu user hU]

/-- Witness for C4 as amended: in the dual-collection store, a login
matching only the admin digest reports `isAdmin=true`, and a login whose
password matches nothing is rejected with 401. -/
theorem isAdmin_iff_admin_password_match_witness :
    getField (login (Bcrypt.mk (fun _ => "HA")
      (fun p h => veq p (.str "pwA") && veq h (.str "HA")))
      [("email", .str "a@x"), ("password", .str "pwA")] dbDual).body "isAdmin"
      = .bool true ∧
    (login Bdual [("email", .str "a@x"), ("password", .str "wrong")] dbDual).status = 401 := by
  constructor
  · exact ((isAdmin_iff_admin_password_match (Bcrypt.mk (fun _ => "HA")
      (fun p h => veq p (.str "pwA") && veq h (.str "HA")))
      [("email", .str "a@x"), ("password", .str "pwA")] dbDual (by rfl) (by rfl)).1.mpr
      ⟨aDual, rfl, rfl⟩).2
  · exact (isAdmin_iff_admin_password_match Bdual
      [("email", .str "a@x"), ("password", .str "wrong")] dbDual (by rfl) (by rfl)).2
      (Or.inl rfl)
      (by intro a ha; cases ha; rfl)
      (by intro u hu; cases hu; rfl)

/-! ### State-preservation helpers -/

theorem loginUsers_db (B : Bcrypt) (e p : Value) (db : DB) :
    (loginUsers B e p db).db = db := by
  rw [loginUsers]
  split
  · rfl
  · split <;> rfl

theorem login_db (B : Bcrypt) (body : Obj) (db : DB) : (login B body db).db = db := by
  rw [login]
  split
  · rfl
  · split
    · split
      · rfl
      · exact loginUsers_db ..
    · exact loginUsers_db ..

theorem getProfile_db (email : Value) (db : DB) : (getProfile email db).db = db := by
  rw [getProfile]
  split
  · rfl
  · split <;> rfl

theorem uniqueEmails_set {l : List Obj} {i : Nat} {u' : Obj}
    (h : uniqueEmails l)
    (he : getField u' "email" = getField (l.getD i []) "email") :
    uniqueEmails (l.set i u') := by
  induction l generalizing i with
  | nil => simpa using h
  | cons x xs ih =>
    cases i with
    | zero =>
      rw [List.set_cons_zero]
      rw [uniqueEmails, List.pairwise_cons] at h ⊢
      obtain ⟨hx, hxs⟩ := h
      refine ⟨?_, hxs⟩
      intro y hy
      rw [List.getD_cons_zero] at he
      rw [he]
      exact hx y hy
    | succ j =>
      rw [List.set_cons_succ]
      rw [List.getD_cons_succ] at he
      rw [uniqueEmails, List.pairwise_cons] at h ⊢
      obtain ⟨hx, hxs⟩ := h
      by_cases hj : xs.length ≤ j
      · rw [List.set_eq_of_length_le hj]
        exact ⟨hx, hxs⟩
      · push_neg at hj
        refine ⟨?_, ih hxs he⟩
        intro y hy
        rcases List.mem_or_eq_of_mem_set hy with hmem | rfl
        · exact hx y hmem
        · rw [he]
          refine hx _ ?_
          rw [List.getD_eq_getElem xs [] hj]
          exact List.getElem_mem hj

/-- One operation preserves pairwise-distinct emails, provided a profile
update does not rewrite the email field. -/
theorem uniqueEmails_step (B : Bcrypt) (op : Op) (db : DB)
    (hk : keepsEmail op) (h : uniqueEmails db.users) :
    uniqueEmails (applyOp B op db).db.users := by
  cases op with
  | register f g n body =>
    simp only [applyOp, register]
    split
    · exact h
    · split
      · exact h
      · rename_i hfound
        rw [uniqueEmails]
        refine List.pairwise_append.mpr ⟨h, by simp, ?_⟩
        intro a ha b hb
        simp only [List.mem_singleton] at hb
        subst hb
        rw [newUser_email]
        have hnone : db.users.find?
            (fun u => veq (getField u "email") (getField body "email")) = none := by
          rcases hfind : db.users.find?
              (fun u => veq (getField u "email") (getField body "email")) with _ | u
          · rfl
          · exact absurd (by rw [hfind]; rfl) hfound
        exact of_not_not (by simpa using List.find?_eq_none.mp hnone a ha)
  | login body =>
    rw [applyOp, login_db]
    exact h
  | getProfile email =>
    rw [applyOp, getProfile_db]
    exact h
  | updateProfile now body =>
    simp only [applyOp, updateProfile]
    split
    · exact h
    · split
      · exact h
      · rename_i i hi
        refine uniqueEmails_set h ?_
        rw [updatedRecord, getField_setField_ne _ _ (by decide),
          getField_mergeObj_not_has _ _ _ hk]
  | listUsers =>
    exact h
  | setStatus now id body =>
    simp only [applyOp, setStatus]
    split
    · exact h
    · refine uniqueEmails_set h ?_
      rw [statusRecord, getField_setField_ne _ _ (by decide),
        getField_setField_ne _ _ (by decide)]
  | deleteUser id =>
    simp only [applyOp, deleteUser]
    split
    · exact h
    · exact List.Pairwise.sublist (List.eraseIdx_sublist ..) h

/-! ### C3: email uniqueness across operation sequences -/

/-- C3 counterexample: starting from the empty store, two registrations
with distinct emails followed by a profile update that rewrites the
first user's email to the second's produce a store whose two user
records carry the same email — so "every other mutating operation also
preserves" uniqueness is false for profile update. -/
theorem duplicate_email_reachable :
    (run Bx dupOps ⟨[], []⟩).users.length = 2 ∧
    veq (getField ((run Bx dupOps ⟨[], []⟩).users.getD 0 []) "email")
        (getField ((run Bx dupOps ⟨[], []⟩).users.getD 1 []) "email") = true ∧
    ¬ uniqueEmails (run Bx dupOps ⟨[], []⟩).users := by
  refine ⟨rfl, rfl, ?_⟩
  intro hu
  rw [uniqueEmails] at hu
  have h2 : (true : Bool) = false :=
    (List.pairwise_cons.mp hu).1 _ (List.mem_cons_self _ _)
  cases h2

/-- C3 as amended: in every state reachable by a sequence of Account
Service operations from a store with pairwise-distinct user emails, the
emails stay pairwise distinct, provided no profile update in the
sequence carries a top-level `email` field in its updates object;
registration preserves uniqueness by its check-before-insert, and
status toggle and delete always preserve it, but a profile update whose
updates object contains an `email` field can break it. -/
theorem email_uniqueness_preserved (B : Bcrypt) (ops : List Op) (db : DB)
    (hk : ∀ op ∈ ops, keepsEmail op) (h : uniqueEmails db.users) :
    uniqueEmails (run B ops db).users := by
  induction ops generalizing db with
  | nil => simpa [run] using h
  | cons op rest ih =>
    rw [run, List.foldl_cons]
    exact ih ((applyOp B op db).db)
      (fun o ho => hk o (List.mem_cons_of_mem _ ho))
      (uniqueEmails_step B op db (hk op (List.mem_cons_self _ _)) h)

/-- Witness for C3: a register-then-toggle sequence keeps the two
distinct emails distinct. -/
theorem email_uniqueness_preserved_witness :
    uniqueEmails (run Bx
      [.register "id2" "g2" "t1" [("email", .str "b@x.com"), ("password", .str "pw")],
       .setStatus "t2" "id1" [("isActive", .bool false)]] dbA).users := by
  refine email_uniqueness_preserved Bx _ dbA ?_ ?_
  · intro op hop
    rcases hop with _ | ⟨_, hop⟩
    · trivial
    · rcases hop with _ | ⟨_, hop⟩
      · trivial
      · cases hop
  · rw [uniqueEmails]
    exact List.pairwise_singleton _ _

/-! ### C9: id and createdAt immutability, updatedAt refresh -/

/-- C9 counterexample: the claim says UpdateProfile cannot alter `id`
for any choice of update fields.  An updates object carrying `_id`
overwrites the stored identifier through the shallow merge. -/
theorem update_can_change_id :
    getField ((updateProfile "t2" [("email", .str "a@x.com"),
      ("updates", .obj [("_id", .str "hacked")])] dbA).db.users.getD 0 []) "_id"
      = .str "hacked" ∧
    getField uA "_id" = .str "id1" ∧
    Value.str "hacked" ≠ Value.str "id1" := by
  refine ⟨rfl, rfl, by simp⟩

/-- One operation leaves every surviving record's `_id` and `createdAt`
intact (or creates the record), provided a profile update touches
neither field. -/
theorem identity_step (B : Bcrypt) (op : Op) (db : DB) (hk : keepsIdentity op) :
    ∀ u' ∈ (applyOp B op db).db.users,
      (∃ u ∈ db.users, getField u "_id" = getField u' "_id" ∧
        getField u "createdAt" = getField u' "createdAt") ∨
      (∃ f g n body, op = .register f g n body ∧
        getField u' "_id" = .str f ∧ getField u' "createdAt" = .str n) := by
  cases op with
  | register f g n body =>
    simp only [applyOp, register]
    split
    · exact fun u' hu' => Or.inl ⟨u', hu', rfl, rfl⟩
    · split
      · exact fun u' hu' => Or.inl ⟨u', hu', rfl, rfl⟩
      · intro u' hu'
        rcases List.mem_append.mp hu' with hmem | hnew
        · exact Or.inl ⟨u', hmem, rfl, rfl⟩
        · simp only [List.mem_singleton] at hnew
          subst hnew
          exact Or.inr ⟨f, g, n, body, rfl, newUser_id .., newUser_createdAt ..⟩
  | login body =>
    rw [applyOp, login_db]
    exact fun u' hu' => Or.inl ⟨u', hu', rfl, rfl⟩
  | getProfile email =>
    rw [applyOp, getProfile_db]
    exact fun u' hu' => Or.inl ⟨u', hu', rfl, rfl⟩
  | updateProfile now body =>
    simp only [applyOp, updateProfile]
    split
    · exact fun u' hu' => Or.inl ⟨u', hu', rfl, rfl⟩
    · split
      · exact fun u' hu' => Or.inl ⟨u', hu', rfl, rfl⟩
      · rename_i i hi
        intro u' hu'
        rcases List.mem_or_eq_of_mem_set hu' with hmem | rfl
        · exact Or.inl ⟨u', hmem, rfl, rfl⟩
        · obtain ⟨-, -, hmem⟩ := findIdx?_getD (d := ([] : Obj)) hi
          refine Or.inl ⟨db.users.getD i [], hmem, ?_, ?_⟩
          · rw [updatedRecord, getField_setField_ne _ _ (by decide),
              getField_mergeObj_not_has _ _ _ hk.1]
          · rw [updatedRecord, getField_setField_ne _ _ (by decide),
              getField_mergeObj_not_has _ _ _ hk.2]
  | listUsers =>
    exact fun u' hu' => Or.inl ⟨u', hu', rfl, rfl⟩
  | setStatus now id body =>
    simp only [applyOp, setStatus]
    split
    · exact fun u' hu' => Or.inl ⟨u', hu', rfl, rfl⟩
    · rename_i i hi
      intro u' hu'
      rcases List.mem_or_eq_of_mem_set hu' with hmem | rfl
      · exact Or.inl ⟨u', hmem, rfl, rfl⟩
      · obtain ⟨-, -, hmem⟩ := findIdx?_getD (d := ([] : Obj)) hi
        refine Or.inl ⟨db.users.getD i [], hmem, ?_, ?_⟩
        · rw [statusRecord, getField_setField_ne _ _ (by decide),
            getField_setField_ne _ _ (by decide)]
        · rw [statusRecord, getField_setField_ne _ _ (by decide),
            getField_setField_ne _ _ (by decide)]
  | deleteUser id =>
    simp only [applyOp, deleteUser]
    split
    · exact fun u' hu' => Or.inl ⟨u', hu', rfl, rfl⟩
    · intro u' hu'
      exact Or.inl ⟨u', List.Sublist.mem hu' (List.eraseIdx_sublist ..), rfl, rfl⟩

/-- C9 as amended: across any sequence of operations whose profile
updates carry neither `_id` nor `createdAt`, every stored user record
either descends from an initial record with the same `_id` and
`createdAt` or was created by one of the registrations in the sequence
with exactly that registration's fresh id and timestamp; and every
successful profile update or status toggle writes its fresh `now`
timestamp into `updatedAt` of the mutated record.  (A profile update
whose updates object carries `_id` or `createdAt` can overwrite them.) -/
theorem id_createdAt_immutable (B : Bcrypt) (ops : List Op) (db : DB)
    (hk : ∀ op ∈ ops, keepsIdentity op) :
    (∀ u' ∈ (run B ops db).users,
      (∃ u ∈ db.users, getField u "_id" = getField u' "_id" ∧
        getField u "createdAt" = getField u' "createdAt") ∨
      (∃ f g n body, Op.register f g n body ∈ ops ∧
        getField u' "_id" = .str f ∧ getField u' "createdAt" = .str n)) ∧
    (∀ (now : String) (body : Obj) (db' : DB) (i : Nat),
      truthy (getField body "email") = true →
      truthy (getField body "updates") = true →
      db'.users.findIdx? (fun u => veq (getField u "email") (getField body "email"))
        = some i →
      (updateProfile now body db').status = 200 ∧
      (updateProfile now body db').db.users = db'.users.set i (updatedRecord now body db' i) ∧
      getField (updatedRecord now body db' i) "updatedAt" = .str now) ∧
    (∀ (now id : String) (body : Obj) (db' : DB) (i : Nat),
      db'.users.findIdx? (fun u => veq (getField u "_id") (.str id)) = some i →
      (setStatus now id body db').status = 200 ∧
      (setStatus now id body db').db.users = db'.users.set i (statusRecord now body db' i) ∧
      getField (statusRecord now body db' i) "updatedAt" = .str now) := by
  refine ⟨?_, ?_, ?_⟩
  · induction ops generalizing db with
    | nil =>
      intro u' hu'
      exact Or.inl ⟨u', hu', rfl, rfl⟩
    | cons op rest ih =>
      intro u' hu'
      rw [run, List.foldl_cons] at hu'
      have hrest : ∀ o ∈ rest, keepsIdentity o :=
        fun o ho => hk o (List.mem_cons_of_mem _ ho)
      rcases ih ((applyOp B op db).db) hrest u' hu' with ⟨u, hu, hid, hca⟩ | ⟨f, g, n, b, hb, hid, hca⟩
      · rcases identity_step B op db (hk op (List.mem_cons_self _ _)) u hu
          with ⟨u0, hu0, hid0, hca0⟩ | ⟨f, g, n, b, hb, hid0, hca0⟩
        · exact Or.inl ⟨u0, hu0, hid0.trans hid, hca0.trans hca⟩
        · exact Or.inr ⟨f, g, n, b, hb ▸ List.mem_cons_self _ _,
            hid.symm.trans hid0, hca.symm.trans hca0⟩
      · exact Or.inr ⟨f, g, n, b, List.mem_cons_of_mem _ hb, hid, hca⟩
  · intro now body db' i he hu hi
    rw [update_success now body db' i he hu hi]
    exact ⟨rfl, rfl, by rw [updatedRecord, getField_setField_self]⟩
  · intro now id body db' i hi
    rw [setStatus_success now id body db' i hi]
    exact ⟨rfl, rfl, by rw [statusRecord, getField_setField_self]⟩

/-- Witness for C9 at a concrete run: a registration followed by a
company update and a status toggle leaves the created record's `_id`
and `createdAt` in place while `updatedAt` was refreshed. -/
theorem id_createdAt_immutable_witness :
    (∀ u' ∈ (run Bx
      [.register "id9" "g9" "t9" [("email", .str "c@x.com"), ("password", .str "pw")],
       .updateProfile "tA" [("email", .str "c@x.com"),
         ("updates", .obj [("company", .str "Acme")])],
       .setStatus "tB" "id9" [("isActive", .bool false)]] ⟨[], []⟩).users,
      (∃ u ∈ (⟨[], []⟩ : DB).users, getField u "_id" = getField u' "_id" ∧
        getField u "createdAt" = getField u' "createdAt") ∨
      (∃ f g n body, Op.register f g n body ∈
        [Op.register "id9" "g9" "t9" [("email", .str "c@x.com"), ("password", .str "pw")],
         Op.updateProfile "tA" [("email", .str "c@x.com"),
           ("updates", .obj [("company", .str "Acme")])],
         Op.setStatus "tB" "id9" [("isActive", .bool false)]] ∧
        getField u' "_id" = .str f ∧ getField u' "createdAt" = .str n)) ∧
    getField (statusRecord "tB" [("isActive", .bool false)] dbA 0) "updatedAt" = .str "tB" := by
  constructor
  · exact (id_createdAt_immutable Bx _ ⟨[], []⟩ (by
      intro op hop
      rcases hop with _ | ⟨_, hop⟩
      · trivial
      · rcases hop with _ | ⟨_, hop⟩
        · exact ⟨rfl, rfl⟩
        · rcases hop with _ | ⟨_, hop⟩
          · trivial
          · cases hop)).1
  · exact ((id_createdAt_immutable Bx [] dbA (by intro op hop; cases hop)).2.2
      "tB" "id1" [("isActive", .bool false)] dbA 0 (by rfl)).2.2

/-! ### C2: payload redaction and the update-path plaintext copy -/

theorem redactedResp_err (s : Bool) (msg : String) :
    redactedResp [("success", .bool s), ("message", .str msg)] := by
  constructor
  · intro o h
    simp [getField] at h
  · intro l h
    simp [getField] at h

theorem redactedResp_user3 (m : String) (u : Obj) :
    redactedResp [("success", Value.bool true), ("message", .str m),
      ("user", .obj (removeField u "password"))] := by
  constructor
  · intro o h
    simp [getField] at h
    subst h
    exact hasField_removeField u "password"
  · intro l h
    simp [getField] at h

theorem redactedResp_user4 (m : String) (u : Obj) (b : Bool) :
    redactedResp [("success", Value.bool true), ("message", .str m),
      ("user", .obj (removeField u "password")), ("isAdmin", .bool b)] := by
  constructor
  · intro o h
    simp [getField] at h
    subst h
    exact hasField_removeField u "password"
  · intro l h
    simp [getField] at h

theorem redactedResp_user2 (u : Obj) :
    redactedResp [("success", Value.bool true),
      ("user", .obj (removeField u "password"))] := by
  constructor
  · intro o h
    simp [getField] at h
    subst h
    exact hasField_removeField u "password"
  · intro l h
    simp [getField] at h

theorem redactedResp_users (l0 : List Obj) :
    redactedResp [("success", Value.bool true),
      ("users", .arr (l0.map fun u => .obj (removeField u "password")))] := by
  constructor
  · intro o h
    simp [getField] at h
  · intro l h
    simp [getField] at h
    subst h
    intro v hv o hvo
    obtain ⟨u, hu, rfl⟩ := List.mem_map.mp hv
    have ho := Value.obj.inj hvo
    exact ho ▸ hasField_removeField u "password"

theorem redacted_register (B : Bcrypt) (f g n : String) (body : Obj) (db : DB) :
    redactedResp (register B f g n body db).body := by
  simp only [register]
  split
  · exact redactedResp_err ..
  · split
    · exact redactedResp_err ..
    · exact redactedResp_user3 ..

theorem redacted_loginUsers (B : Bcrypt) (e p : Value) (db : DB) :
    redactedResp (loginUsers B e p db).body := by
  rw [loginUsers]
  split
  · exact redactedResp_err ..
  · split
    · exact redactedResp_user4 ..
    · exact redactedResp_err ..

theorem redacted_login (B : Bcrypt) (body : Obj) (db : DB) :
    redactedResp (login B body db).body := by
  simp only [login]
  split
  · exact redactedResp_err ..
  · split
    · split
      · exact redactedResp_user4 ..
      · exact redacted_loginUsers ..
    · exact redacted_loginUsers ..

theorem redacted_getProfile (email : Value) (db : DB) :
    redactedResp (getProfile email db).body := by
  rw [getProfile]
  split
  · exact redactedResp_err ..
  · split
    · exact redactedResp_err ..
    · exact redactedResp_user2 ..

theorem redacted_updateProfile (now : String) (body : Obj) (db : DB) :
    redactedResp (updateProfile now body db).body := by
  simp only [updateProfile]
  split
  · exact redactedResp_err ..
  · split
    · exact redactedResp_err ..
    · exact redactedResp_user3 ..

theorem redacted_setStatus (now id : String) (body : Obj) (db : DB) :
    redactedResp (setStatus now id body db).body := by
  simp only [setStatus]
  split
  · exact redactedResp_err ..
  · exact redactedResp_user3 ..

theorem redacted_deleteUser (id : String) (db : DB) :
    redactedResp (deleteUser id db).body := by
  rw [deleteUser]
  split
  · exact redactedResp_err ..
  · exact redactedResp_err ..

/-- C2 counterexample: the no-plaintext-storage invariant fails on a
reachable state.  Starting from the empty store, registering the user
and then updating the profile with an updates object carrying
`password: "pw2"` leaves the literal client-supplied plaintext in the
stored record. -/
theorem plaintext_password_reachable :
    getField ((run Bx [.register "id1" "g1" "t1" regBodyPw,
      .updateProfile "t2" updBodyPw] ⟨[], []⟩).users.getD 0 []) "password"
      = .str "pw2" ∧
    getField (spreadFields (getField updBodyPw "updates")) "password" = .str "pw2" := by
  exact ⟨rfl, rfl⟩

/-- C2 as amended: every response payload of every operation is
redacted — any `user` object and every member of any `users` array has
the password field removed — and registration aside, the no-plaintext
invariant does not survive UpdateProfile: its shallow merge copies a
client-supplied top-level `password` field verbatim into the stored
record, so a stored password can equal a client-supplied plaintext. -/
theorem response_redaction_update_copies_password :
    (∀ (B : Bcrypt) (op : Op) (db : DB), redactedResp (applyOp B op db).body) ∧
    (∀ (now : String) (body : Obj) (db : DB) (i : Nat) (upd : Obj),
      getField body "updates" = .obj upd → keysNodup upd →
      hasField upd "password" = true →
      truthy (getField body "email") = true →
      db.users.findIdx? (fun u => veq (getField u "email") (getField body "email"))
        = some i →
      (updateProfile now body db).db.users = db.users.set i (updatedRecord now body db i) ∧
      getField (updatedRecord now body db i) "password" = getField upd "password") := by
  constructor
  · intro B op db
    cases op with
    | register f g n body => exact redacted_register ..
    | login body => exact redacted_login ..
    | getProfile email => exact redacted_getProfile ..
    | updateProfile now body => exact redacted_updateProfile ..
    | listUsers => exact redactedResp_users ..
    | setStatus now id body => exact redacted_setStatus ..
    | deleteUser id => exact redacted_deleteUser ..
  · intro now body db i upd hupd hnd hhas he hi
    have hu : truthy (getField body "updates") = true := by rw [hupd]; rfl
    rw [update_success now body db i he hu hi]
    refine ⟨rfl, ?_⟩
    rw [updatedRecord, getField_setField_ne _ _ (by decide), hupd]
    exact getField_mergeObj_has _ _ _ hnd hhas

/-- Witness for C2 as amended, at the concrete plaintext-copying
update. -/
theorem response_redaction_update_copies_password_witness :
    getField (updatedRecord "t2" updBodyPw dbA 0) "password" = .str "pw2" ∧
    (updateProfile "t2" updBodyPw dbA).db.users = [updatedRecord "t2" updBodyPw dbA 0] := by
  have h := response_redaction_update_copies_password.2 "t2" updBodyPw dbA 0
    [("password", .str "pw2")] rfl (by simp [keysNodup]) (by rfl) (by rfl) (by rfl)
  exact ⟨h.2.trans rfl, h.1.trans rfl⟩

end UserApi
